import Mathlib

/-!
Shallow embedding of `src/drizzle-adapter.ts` from zod-paginate-drizzle.

The adapter compiles an already-validated pagination request (page/limit,
sort keys, a boolean filter tree, an optional select list) into the clause
bundle consumed by a Drizzle query builder.  The embedding is parameterised
over the opaque host types: `C` is the column-handle type, `V` the scalar
value type, `W` the where-expression type, `O` the order-by expression type.
TypeScript exceptions are modelled with `Except AdapterError`; the
`undefined` results of the source are modelled with `Option`.
-/

namespace ZodPaginateDrizzle

/-- The errors thrown by the adapter.  The source throws plain `Error`
objects; the constructors here record the data the message is built from. -/
inductive AdapterError where
  | fieldMapping (path : String)
  | unsupportedContains
  deriving DecidableEq, Repr

/-- The exact message strings of the `throw new Error(...)` sites. -/
def errorMessage : AdapterError → String
  | .fieldMapping path => "No Drizzle field mapping found for \"" ++ path ++ "\""
  | .unsupportedContains =>
      "Operator \"$contains\" is present but no \"contains\" function is provided in the Drizzle operator set"

/-- `DrizzleOperatorSet` from the source.  The variadic `and`/`or` take a
`List`; the source only ever calls them with at least two expressions, so
the empty-list throw of `andSql`/`orSql` is unreachable from the adapter
and the fields are total here.  `contains` is optional, as in the source. -/
structure DrizzleOperatorSet (C V W O : Type) where
  eq : C → V → W
  isNull : C → W
  inArray : C → List V → W
  gt : C → V → W
  gte : C → V → W
  lt : C → V → W
  lte : C → V → W
  ilike : C → String → W
  and : List W → W
  or : List W → W
  not : W → W
  asc : C → O
  desc : C → O
  contains : Option (C → List String → W) := none

/-- A `Condition` as validated upstream: the payload shape is keyed by the
operator, exactly the arities the source destructures (`$btw` is a
two-element pair, `$in` a scalar list, `$contains` a string list,
`$ilike`/`$sw` strings, `$null` no value). -/
inductive CondOp (V : Type) where
  | null
  | eq (v : V)
  | inArray (vs : List V)
  | contains (vs : List String)
  | gt (v : V)
  | gte (v : V)
  | lt (v : V)
  | lte (v : V)
  | btw (a b : V)
  | ilike (s : String)
  | sw (s : String)

structure Condition (V : Type) where
  group : String
  op : CondOp V
  not : Bool := false

/-- `WhereNode` from zod-paginate: a leaf filter or an and/or group. -/
inductive WhereNode (V : Type) where
  | filter (field : String) (condition : Condition V)
  | and (items : List (WhereNode V))
  | or (items : List (WhereNode V))

inductive SortDirection where
  | ASC
  | DESC
  deriving DecidableEq, Repr

structure SortItem where
  property : String
  direction : SortDirection

inductive PaginationType where
  | LIMIT_OFFSET
  | CURSOR
  deriving DecidableEq, Repr

/-- The pagination payload as the adapter reads it: every field the adapter
touches is accessed defensively (`typeof page === 'number'`,
`limit !== undefined`, `select ? ... : []`, `sortBy?.`), so each is
optional here. -/
structure Pagination (V : Type) where
  type : PaginationType
  page : Option Int := none
  limit : Option Int := none
  select : Option (List String) := none
  sortBy : Option (List SortItem) := none
  filters : Option (WhereNode V) := none

structure PaginationQueryParams (V : Type) where
  pagination : Pagination V

/-- The caller-supplied field mapping: field path → column handle, absent
paths give `undefined`.  Drizzle column handles are objects, hence always
truthy, so the source's `!== undefined` and `!mappedColumn` checks both
coincide with `Option.isSome` here. -/
def FieldMap (C : Type) : Type := String → Option C

structure BuildDrizzleClausesConfig (C V W O : Type) where
  fields : FieldMap C
  operators : DrizzleOperatorSet C V W O
  selectAlias : Option (String → String) := none
  strictFieldMapping : Option Bool := none

/-- The clause bundle.  `select` is kept as the ordered sequence of
`selectShape[finalAlias] = mappedColumn` assignments the loop performs
(JavaScript object assignment overwrites on a duplicate key, so a duplicate
first component here is exactly an overwritten entry). -/
structure DrizzlePaginationClauses (C W O : Type) where
  select : List (String × C)
  whereClause : Option W
  orderBy : Option (List O)
  limit : Option Int
  offset : Option Int

/-- Character-level `String.replaceAll` for a single-character pattern, the
only form the source uses. -/
def replaceAllChar : List Char → Char → List Char → List Char
  | [], _, _ => []
  | x :: xs, c, r => (if x = c then r else [x]) ++ replaceAllChar xs c r

/-- `defaultSelectAlias`: `path.replaceAll('.', '_')`. -/
def defaultSelectAlias (path : String) : String :=
  ⟨replaceAllChar path.data '.' ['_']⟩

/-- `escapeLike`: the three chained `replaceAll` calls of the source. -/
def escapeLike (value : String) : String :=
  ⟨replaceAllChar
    (replaceAllChar (replaceAllChar value.data '\\' ['\\', '\\']) '%' ['\\', '%'])
    '_' ['\\', '_']⟩

/-- `getMappedColumn`: returns the mapped column, throws under strict
mapping when the path is absent, returns `undefined` otherwise. -/
def getMappedColumn {C : Type} (fieldPath : String) (fields : FieldMap C)
    (strictFieldMapping : Bool) : Except AdapterError (Option C) :=
  match fields fieldPath with
  | some mappedColumn => .ok (some mappedColumn)
  | none =>
      if strictFieldMapping then .error (.fieldMapping fieldPath)
      else .ok none

/-- The loop body of `buildSelectShapeInternal`, with the
`aliasUsageCount` map made explicit (`cnt` is `aliasUsageCount.get ?? 0`). -/
def buildSelectAux {C : Type} (fields : FieldMap C) (strictFieldMapping : Bool)
    (selectAlias : String → String) :
    List String → (String → Nat) → Except AdapterError (List (String × C))
  | [], _ => .ok []
  | fieldPath :: rest, cnt =>
      match getMappedColumn fieldPath fields strictFieldMapping with
      | .error e => .error e
      | .ok none => buildSelectAux fields strictFieldMapping selectAlias rest cnt
      | .ok (some mappedColumn) =>
          let baseAlias := selectAlias fieldPath
          let collisionIndex := cnt baseAlias
          let finalAlias :=
            if collisionIndex = 0 then baseAlias
            else baseAlias ++ "_" ++ toString collisionIndex
          (buildSelectAux fields strictFieldMapping selectAlias rest
              (fun a => if a = baseAlias then collisionIndex + 1 else cnt a)).map
            (fun shape => (finalAlias, mappedColumn) :: shape)

/-- `buildSelectShapeInternal`. -/
def buildSelectShapeInternal {C : Type} (selectedFields : List String)
    (fields : FieldMap C) (strictFieldMapping : Bool)
    (selectAlias : String → String) : Except AdapterError (List (String × C)) :=
  buildSelectAux fields strictFieldMapping selectAlias selectedFields (fun _ => 0)

/-- `conditionToDrizzleExpr`: the operator dispatch switch, then the
post-hoc `not` wrapper. -/
def conditionToDrizzleExpr {C V W O : Type} (condition : Condition V) (column : C)
    (operators : DrizzleOperatorSet C V W O) : Except AdapterError W :=
  let base : Except AdapterError W :=
    match condition.op with
    | .null => .ok (operators.isNull column)
    | .eq v => .ok (operators.eq column v)
    | .inArray vs => .ok (operators.inArray column vs)
    | .contains vs =>
        match operators.contains with
        | none => .error .unsupportedContains
        | some f => .ok (f column vs)
    | .gt v => .ok (operators.gt column v)
    | .gte v => .ok (operators.gte column v)
    | .lt v => .ok (operators.lt column v)
    | .lte v => .ok (operators.lte column v)
    | .btw a b =>
        .ok (operators.and [operators.gte column a, operators.lte column b])
    | .ilike s => .ok (operators.ilike column ("%" ++ escapeLike s ++ "%"))
    | .sw s => .ok (operators.ilike column (escapeLike s ++ "%"))
  match base with
  | .error e => .error e
  | .ok expression =>
      if condition.not then .ok (operators.not expression) else .ok expression

mutual

/-- `whereNodeToDrizzleExpr`: leaf resolution (prune or throw per strict
mode) and group compilation over the surviving children. -/
def whereNodeToDrizzleExpr {C V W O : Type} (node : WhereNode V)
    (fields : FieldMap C) (operators : DrizzleOperatorSet C V W O)
    (strictFieldMapping : Bool) : Except AdapterError (Option W) :=
  match node with
  | .filter field condition =>
      match getMappedColumn field fields strictFieldMapping with
      | .error e => .error e
      | .ok none => .ok none
      | .ok (some mappedColumn) =>
          match conditionToDrizzleExpr condition mappedColumn operators with
          | .error e => .error e
          | .ok expression => .ok (some expression)
  | .and items =>
      match whereChildrenToDrizzleExprs items fields operators strictFieldMapping with
      | .error e => .error e
      | .ok [] => .ok none
      | .ok [expression] => .ok (some expression)
      | .ok childExpressions => .ok (some (operators.and childExpressions))
  | .or items =>
      match whereChildrenToDrizzleExprs items fields operators strictFieldMapping with
      | .error e => .error e
      | .ok [] => .ok none
      | .ok [expression] => .ok (some expression)
      | .ok childExpressions => .ok (some (operators.or childExpressions))

/-- The `node.items.map(...).filter(Boolean)` step: compile each child in
order (an exception in any child aborts the whole call) and keep the
surviving expressions. -/
def whereChildrenToDrizzleExprs {C V W O : Type} (nodes : List (WhereNode V))
    (fields : FieldMap C) (operators : DrizzleOperatorSet C V W O)
    (strictFieldMapping : Bool) : Except AdapterError (List W) :=
  match nodes with
  | [] => .ok []
  | node :: rest =>
      match whereNodeToDrizzleExpr node fields operators strictFieldMapping with
      | .error e => .error e
      | .ok head =>
          match whereChildrenToDrizzleExprs rest fields operators strictFieldMapping with
          | .error e => .error e
          | .ok tail =>
              match head with
              | none => .ok tail
              | some expression => .ok (expression :: tail)

end

/-- `directionToOrderExpr`. -/
def directionToOrderExpr {C V W O : Type} (direction : SortDirection) (column : C)
    (operators : DrizzleOperatorSet C V W O) : O :=
  match direction with
  | .ASC => operators.asc column
  | .DESC => operators.desc column

/-- The `pagination.sortBy?.map(...).filter(Boolean)` step of
`buildDrizzleClausesFromPagination`: resolve each sort key with the strict
flag (so an unmapped key throws under strict mode), drop unmapped keys
otherwise, and build the order expressions in request order. -/
def buildOrderBy {C V W O : Type} (items : List SortItem) (fields : FieldMap C)
    (operators : DrizzleOperatorSet C V W O) (strictFieldMapping : Bool) :
    Except AdapterError (List O) :=
  match items with
  | [] => .ok []
  | sortItem :: rest =>
      match getMappedColumn sortItem.property fields strictFieldMapping with
      | .error e => .error e
      | .ok none => buildOrderBy rest fields operators strictFieldMapping
      | .ok (some mappedColumn) =>
          (buildOrderBy rest fields operators strictFieldMapping).map
            (fun tail => directionToOrderExpr sortItem.direction mappedColumn operators :: tail)

/-- The offset computation of `buildDrizzleClausesFromPagination`:
only for `LIMIT_OFFSET` pagination with a numeric page and a present
limit; `safePage = page > 0 ? page : 1`. -/
def computeOffset {V : Type} (pagination : Pagination V) : Option Int :=
  if pagination.type = .LIMIT_OFFSET then
    match pagination.page, pagination.limit with
    | some page, some limit =>
        some (((if page > 0 then page else 1) - 1) * limit)
    | _, _ => none
  else none

/-- The `const where = pagination.filters ? whereNodeToDrizzleExpr(...) :
undefined` statement. -/
def buildWherePart {C V W O : Type} (pagination : Pagination V) (fields : FieldMap C)
    (operators : DrizzleOperatorSet C V W O) (strictFieldMapping : Bool) :
    Except AdapterError (Option W) :=
  match pagination.filters with
  | none => .ok none
  | some node => whereNodeToDrizzleExpr node fields operators strictFieldMapping

/-- The `const orderBy = pagination.sortBy?.map(...).filter(...)`
statement: `none` models the undefined produced by optional chaining. -/
def buildOrderByPart {C V W O : Type} (pagination : Pagination V) (fields : FieldMap C)
    (operators : DrizzleOperatorSet C V W O) (strictFieldMapping : Bool) :
    Except AdapterError (Option (List O)) :=
  match pagination.sortBy with
  | none => .ok none
  | some items => (buildOrderBy items fields operators strictFieldMapping).map some

/-- The `orderBy && orderBy.length > 0 ? orderBy : undefined` normalization
of the returned record. -/
def normalizeOrderBy {O : Type} (orderBy : Option (List O)) : Option (List O) :=
  match orderBy with
  | some orderExprs => if orderExprs.length > 0 then some orderExprs else none
  | none => none

/-- `buildDrizzleClausesFromPagination`. -/
def buildDrizzleClausesFromPagination {C V W O : Type}
    (parsed : PaginationQueryParams V)
    (config : BuildDrizzleClausesConfig C V W O) :
    Except AdapterError (DrizzlePaginationClauses C W O) :=
  let strictFieldMapping := config.strictFieldMapping.getD true
  let aliasBuilder := config.selectAlias.getD defaultSelectAlias
  let pagination := parsed.pagination
  match buildSelectShapeInternal (pagination.select.getD []) config.fields
      strictFieldMapping aliasBuilder with
  | .error e => .error e
  | .ok select =>
      match buildWherePart pagination config.fields config.operators
          strictFieldMapping with
      | .error e => .error e
      | .ok whereClause =>
          match buildOrderByPart pagination config.fields config.operators
              strictFieldMapping with
          | .error e => .error e
          | .ok orderBy =>
              .ok
                { select := select
                  whereClause := whereClause
                  orderBy := normalizeOrderBy orderBy
                  limit := pagination.limit
                  offset := computeOffset pagination }

/-- Symbolic Drizzle SQL expressions: the free terms over the imported
drizzle-orm predicate builders, enough to distinguish what the two
built-in operator sets construct. -/
inductive SqlExpr (C V : Type) where
  | eq (c : C) (v : V)
  | isNull (c : C)
  | inArray (c : C) (vs : List V)
  | gt (c : C) (v : V)
  | gte (c : C) (v : V)
  | lt (c : C) (v : V)
  | lte (c : C) (v : V)
  | ilike (c : C) (pattern : String)
  | like (c : C) (pattern : String)
  | andE (es : List (SqlExpr C V))
  | orE (es : List (SqlExpr C V))
  | notE (e : SqlExpr C V)
  | arrayContains (c : C) (vs : List String)

inductive OrderExpr (C : Type) where
  | asc (c : C)
  | desc (c : C)

/-- `createPgDrizzleOperators`: `$ilike` is real `ilike`, `contains` is
`arrayContains`. -/
def createPgDrizzleOperators (C V : Type) :
    DrizzleOperatorSet C V (SqlExpr C V) (OrderExpr C) where
  eq := .eq
  isNull := .isNull
  inArray := .inArray
  gt := .gt
  gte := .gte
  lt := .lt
  lte := .lte
  ilike := .ilike
  and := .andE
  or := .orE
  not := .notE
  asc := .asc
  desc := .desc
  contains := some .arrayContains

/-- `createMySqlDrizzleOperators`: `$ilike` falls back to `like`, and
`contains` is intentionally not provided. -/
def createMySqlDrizzleOperators (C V : Type) :
    DrizzleOperatorSet C V (SqlExpr C V) (OrderExpr C) where
  eq := .eq
  isNull := .isNull
  inArray := .inArray
  gt := .gt
  gte := .gte
  lt := .lt
  lte := .lte
  ilike := .like
  and := .andE
  or := .orE
  not := .notE
  asc := .asc
  desc := .desc
  contains := none

inductive DrizzleDialect where
  | pg
  | mysql
  deriving DecidableEq, Repr

/-- `getOperatorsForDialect`. -/
def getOperatorsForDialect (C V : Type) (dialect : DrizzleDialect) :
    DrizzleOperatorSet C V (SqlExpr C V) (OrderExpr C) :=
  if dialect = .pg then createPgDrizzleOperators C V
  else createMySqlDrizzleOperators C V

/-- Spec-side description of pattern escaping, one character at a time: the
wildcard metacharacters `\`, `%`, `_` are backslash-escaped, every other
character is kept as is. -/
def escSpecChar (c : Char) : List Char :=
  if c = '\\' ∨ c = '%' ∨ c = '_' then ['\\', c] else [c]

/-- Spec-side escaping of a whole character sequence. -/
def escAll : List Char → List Char
  | [] => []
  | c :: cs => escSpecChar c ++ escAll cs

/-! Concrete fixtures used by witnesses and counterexamples. -/

/-- Field map with the single mapped path `"name"` (column handle `1`). -/
def fm1 : FieldMap Nat := fun p => if p = "name" then some 1 else none

def pgOps : DrizzleOperatorSet Nat Nat (SqlExpr Nat Nat) (OrderExpr Nat) :=
  createPgDrizzleOperators Nat Nat

def mysqlOps : DrizzleOperatorSet Nat Nat (SqlExpr Nat Nat) (OrderExpr Nat) :=
  createMySqlDrizzleOperators Nat Nat

def baseCfg : BuildDrizzleClausesConfig Nat Nat (SqlExpr Nat Nat) (OrderExpr Nat) :=
  { fields := fm1, operators := pgOps }

/-- A cursor-mode request that nevertheless carries a page and a limit. -/
def cursorReq : PaginationQueryParams Nat :=
  ⟨{ type := .CURSOR, page := some 2, limit := some 10 }⟩

/-- A limit/offset request with page 0 and limit 10. -/
def pageZeroReq : PaginationQueryParams Nat :=
  ⟨{ type := .LIMIT_OFFSET, page := some 0, limit := some 10 }⟩

/-- A strict-mode request sorting by an unmapped property. -/
def unmappedSortReq : PaginationQueryParams Nat :=
  ⟨{ type := .LIMIT_OFFSET, page := some 1, limit := some 10,
     sortBy := some [⟨"missing", .ASC⟩] }⟩

/-- Field map for the alias-collision counterexample: both `"a.b"` and the
literal path `"a_b_1"` are mapped. -/
def c3Fields : FieldMap Nat :=
  fun p => if p = "a.b" then some 1 else if p = "a_b_1" then some 2 else none

/-- Children of the group used in the C5 witness: an unmapped leaf and a
mapped equality leaf. -/
def c5items : List (WhereNode Nat) :=
  [.filter "unknown" ⟨"g", .eq 5, false⟩, .filter "name" ⟨"g", .eq 5, false⟩]

/-! Helper lemmas. -/

theorem safePage_eq_max (page : Int) : (if page > 0 then page else 1) = max page 1 := by
  split <;> omega

/-- Whatever branches the assembler takes, a successful result carries the
pass-through limit and the offset computed by `computeOffset`. -/
theorem build_ok_parts {C V W O : Type} (parsed : PaginationQueryParams V)
    (config : BuildDrizzleClausesConfig C V W O)
    (c : DrizzlePaginationClauses C W O)
    (hok : buildDrizzleClausesFromPagination parsed config = .ok c) :
    c.offset = computeOffset parsed.pagination ∧ c.limit = parsed.pagination.limit := by
  obtain ⟨pagination⟩ := parsed
  simp only [buildDrizzleClausesFromPagination] at hok
  cases h1 : buildSelectShapeInternal (pagination.select.getD []) config.fields
      (config.strictFieldMapping.getD true)
      (config.selectAlias.getD defaultSelectAlias) with
  | error e => rw [h1] at hok; simp at hok
  | ok select =>
    rw [h1] at hok
    cases h2 : buildWherePart pagination config.fields config.operators
        (config.strictFieldMapping.getD true) with
    | error e => rw [h2] at hok; simp at hok
    | ok whereClause =>
      rw [h2] at hok
      cases h3 : buildOrderByPart pagination config.fields config.operators
          (config.strictFieldMapping.getD true) with
      | error e => rw [h3] at hok; simp at hok
      | ok orderBy =>
        rw [h3] at hok
        cases hok
        exact ⟨rfl, rfl⟩

/-- C4 (amended): when the pagination type is `LIMIT_OFFSET` and a page
number and a limit are both present, the assembled offset equals
`(max(page, 1) - 1) * limit` — page 0, negative pages, and page 1 all
yield offset 0 — and whenever the limit is absent the offset is absent.
For pagination types other than `LIMIT_OFFSET` no offset is assembled. -/
theorem offset_formula {C V W O : Type} (parsed : PaginationQueryParams V)
    (config : BuildDrizzleClausesConfig C V W O)
    (c : DrizzlePaginationClauses C W O)
    (hok : buildDrizzleClausesFromPagination parsed config = .ok c) :
    (∀ page limit, parsed.pagination.type = .LIMIT_OFFSET →
      parsed.pagination.page = some page → parsed.pagination.limit = some limit →
      c.offset = some ((max page 1 - 1) * limit)) ∧
    (parsed.pagination.limit = none → c.offset = none) := by
  obtain ⟨hoff, -⟩ := build_ok_parts parsed config c hok
  constructor
  · intro page limit htype hpage hlimit
    rw [hoff]
    simp [computeOffset, htype, hpage, hlimit, safePage_eq_max]
  · intro hlimit
    rw [hoff]
    simp only [computeOffset, hlimit]
    split
    · split <;> simp_all
    · rfl

theorem offset_formula_witness :
    buildDrizzleClausesFromPagination pageZeroReq baseCfg =
      .ok { select := [], whereClause := none, orderBy := none,
            limit := some 10, offset := some 0 } ∧
    ({ select := [], whereClause := none, orderBy := none, limit := some 10,
       offset := some 0 } : DrizzlePaginationClauses Nat (SqlExpr Nat Nat)
        (OrderExpr Nat)).offset = some ((max 0 1 - 1) * 10) :=
  ⟨rfl,
    (offset_formula pageZeroReq baseCfg _ rfl).1 0 10 rfl rfl rfl⟩

/-- C4 (counterexample): a cursor-mode request carrying page 2 and limit
10 assembles no offset at all, while the claim as stated demands offset
`(max(2, 1) - 1) * 10 = 10` for every request with page and limit
present. -/
theorem offset_formula_counterexample :
    buildDrizzleClausesFromPagination cursorReq baseCfg =
      .ok { select := [], whereClause := none, orderBy := none,
            limit := some 10, offset := none } ∧
    (none : Option Int) ≠ some ((max 2 1 - 1) * 10) :=
  ⟨rfl, by decide⟩

/-- C10: a successful build assembles an offset only when the pagination
type is `LIMIT_OFFSET` and both page and limit are present; for any other
pagination type the offset is absent while the limit is still passed
through unchanged. -/
theorem offset_only_for_limit_offset {C V W O : Type}
    (parsed : PaginationQueryParams V)
    (config : BuildDrizzleClausesConfig C V W O)
    (c : DrizzlePaginationClauses C W O)
    (hok : buildDrizzleClausesFromPagination parsed config = .ok c) :
    (c.offset.isSome → parsed.pagination.type = .LIMIT_OFFSET ∧
      parsed.pagination.page.isSome ∧ parsed.pagination.limit.isSome) ∧
    (parsed.pagination.type ≠ .LIMIT_OFFSET → c.offset = none) ∧
    c.limit = parsed.pagination.limit := by
  obtain ⟨hoff, hlim⟩ := build_ok_parts parsed config c hok
  refine ⟨?_, ?_, hlim⟩
  · intro hsome
    rw [hoff] at hsome
    unfold computeOffset at hsome
    by_cases htype : parsed.pagination.type = .LIMIT_OFFSET
    · refine ⟨htype, ?_⟩
      rw [if_pos htype] at hsome
      cases hpage : parsed.pagination.page with
      | none => rw [hpage] at hsome; simp at hsome
      | some page =>
        cases hlimit : parsed.pagination.limit with
        | none => rw [hpage, hlimit] at hsome; simp at hsome
        | some limit => simp
    · rw [if_neg htype] at hsome
      simp at hsome
  · intro htype
    rw [hoff]
    unfold computeOffset
    rw [if_neg htype]

theorem offset_only_for_limit_offset_witness :
    buildDrizzleClausesFromPagination cursorReq baseCfg =
      .ok { select := [], whereClause := none, orderBy := none,
            limit := some 10, offset := none } ∧
    ({ select := [], whereClause := none, orderBy := none, limit := some 10,
       offset := none } : DrizzlePaginationClauses Nat (SqlExpr Nat Nat)
        (OrderExpr Nat)).offset = none ∧
    ({ select := [], whereClause := none, orderBy := none, limit := some 10,
       offset := none } : DrizzlePaginationClauses Nat (SqlExpr Nat Nat)
        (OrderExpr Nat)).limit = cursorReq.pagination.limit :=
  ⟨rfl,
    (offset_only_for_limit_offset cursorReq baseCfg _ rfl).2.1 (by decide),
    (offset_only_for_limit_offset cursorReq baseCfg _ rfl).2.2⟩

/-- C6: for every column and every two-element `$btw` value `[a, b]`, the
condition compiler produces exactly the operator set's `and` of
`gte(column, a)` and `lte(column, b)`; equivalently, a `$btw [a,b]` leaf
on a field compiles to the very expression the `And` group of a `$gte a`
leaf and a `$lte b` leaf on that field compiles to. -/
theorem btw_is_gte_and_lte {C V W O : Type}
    (operators : DrizzleOperatorSet C V W O) (column : C) (a b : V)
    (g g1 g2 : String) (fields : FieldMap C) (f : String) (strict : Bool)
    (hmap : fields f = some column) :
    conditionToDrizzleExpr ⟨g, .btw a b, false⟩ column operators =
      .ok (operators.and [operators.gte column a, operators.lte column b]) ∧
    whereNodeToDrizzleExpr (.filter f ⟨g, .btw a b, false⟩) fields operators strict =
      whereNodeToDrizzleExpr
        (.and [.filter f ⟨g1, .gte a, false⟩, .filter f ⟨g2, .lte b, false⟩])
        fields operators strict := by
  constructor
  · rfl
  · simp [whereNodeToDrizzleExpr, whereChildrenToDrizzleExprs, getMappedColumn,
      hmap, conditionToDrizzleExpr]

theorem btw_is_gte_and_lte_witness :
    conditionToDrizzleExpr ⟨"g", .btw 3 7, false⟩ 1 pgOps =
      .ok (pgOps.and [pgOps.gte 1 3, pgOps.lte 1 7]) ∧
    whereNodeToDrizzleExpr (.filter "name" ⟨"g", .btw 3 7, false⟩) fm1 pgOps true =
      whereNodeToDrizzleExpr
        (.and [.filter "name" ⟨"g1", .gte 3, false⟩,
               .filter "name" ⟨"g2", .lte 7, false⟩]) fm1 pgOps true :=
  btw_is_gte_and_lte pgOps 1 3 7 "g" "g1" "g2" fm1 "name" true rfl

/-- C7: compiling a `$contains` condition against any operator set whose
`contains` primitive is absent fails with the unsupported-operator error —
both at the condition compiler and for a mapped filter leaf in the tree
compiler, under either negation flag — and the built-in MySQL operator
set is such a set. -/
theorem contains_without_primitive_fails {C V W O : Type}
    (operators : DrizzleOperatorSet C V W O) (column : C)
    (g : String) (vs : List String) (negated : Bool)
    (fields : FieldMap C) (f : String) (strict : Bool)
    (hnone : operators.contains = none) (hmap : fields f = some column) :
    conditionToDrizzleExpr ⟨g, .contains vs, negated⟩ column operators =
      .error .unsupportedContains ∧
    whereNodeToDrizzleExpr (.filter f ⟨g, .contains vs, negated⟩) fields
        operators strict = .error .unsupportedContains ∧
    (createMySqlDrizzleOperators C V).contains = none := by
  refine ⟨?_, ?_, rfl⟩
  · simp [conditionToDrizzleExpr, hnone]
  · simp [whereNodeToDrizzleExpr, getMappedColumn, hmap,
      conditionToDrizzleExpr, hnone]

theorem contains_without_primitive_fails_witness :
    conditionToDrizzleExpr ⟨"tags", .contains ["x"], false⟩ 1 mysqlOps =
      .error .unsupportedContains ∧
    whereNodeToDrizzleExpr (.filter "name" ⟨"tags", .contains ["x"], false⟩)
        fm1 mysqlOps true = .error .unsupportedContains ∧
    (createMySqlDrizzleOperators Nat Nat).contains = none :=
  contains_without_primitive_fails mysqlOps 1 "tags" ["x"] false fm1 "name"
    true rfl rfl

/-- C8: a filter leaf on a path absent from the field mapping fails with a
`FieldMappingError` naming that path when `strictFieldMapping` is true,
and compiles to absent without error when it is false; the error message
contains the unmapped path verbatim. -/
theorem strict_leaf_unmapped_behavior {C V W O : Type} (f : String)
    (fields : FieldMap C) (operators : DrizzleOperatorSet C V W O)
    (condition : Condition V) (hnone : fields f = none) :
    whereNodeToDrizzleExpr (.filter f condition) fields operators true =
      .error (.fieldMapping f) ∧
    whereNodeToDrizzleExpr (.filter f condition) fields operators false =
      .ok none ∧
    errorMessage (.fieldMapping f) =
      "No Drizzle field mapping found for \"" ++ f ++ "\"" := by
  refine ⟨?_, ?_, rfl⟩
  · simp [whereNodeToDrizzleExpr, getMappedColumn, hnone]
  · simp [whereNodeToDrizzleExpr, getMappedColumn, hnone]

theorem strict_leaf_unmapped_behavior_witness :
    whereNodeToDrizzleExpr (.filter "missing" ⟨"missing", .eq 1, false⟩)
        fm1 pgOps true = .error (.fieldMapping "missing") ∧
    whereNodeToDrizzleExpr (.filter "missing" ⟨"missing", .eq 1, false⟩)
        fm1 pgOps false = .ok none ∧
    errorMessage (.fieldMapping "missing") =
      "No Drizzle field mapping found for \"" ++ "missing" ++ "\"" :=
  strict_leaf_unmapped_behavior "missing" fm1 pgOps ⟨"missing", .eq 1, false⟩ rfl

theorem replaceAllChar_append (a b : List Char) (c : Char) (r : List Char) :
    replaceAllChar (a ++ b) c r = replaceAllChar a c r ++ replaceAllChar b c r := by
  induction a with
  | nil => rfl
  | cons x xs ih => simp [replaceAllChar, ih]

/-- The three chained `replaceAll` passes of `escapeLike` together escape
each metacharacter of the original string exactly once: the backslashes
inserted by one pass are never re-escaped by a later pass. -/
theorem escape_chain (l : List Char) :
    replaceAllChar
      (replaceAllChar (replaceAllChar l '\\' ['\\', '\\']) '%' ['\\', '%'])
      '_' ['\\', '_'] = escAll l := by
  induction l with
  | nil => rfl
  | cons x xs ih =>
    rw [show replaceAllChar (x :: xs) '\\' ['\\', '\\'] =
        (if x = '\\' then ['\\', '\\'] else [x]) ++
          replaceAllChar xs '\\' ['\\', '\\'] from rfl]
    rw [replaceAllChar_append, replaceAllChar_append, ih]
    by_cases h1 : x = '\\'
    · subst h1; rfl
    · by_cases h2 : x = '%'
      · subst h2; rfl
      · by_cases h3 : x = '_'
        · subst h3; rfl
        · simp [replaceAllChar, escAll, escSpecChar, h1, h2, h3]

/-- C9: `$ilike` compiles to the pattern-match primitive on
`%escaped(value)%` and `$sw` on `escaped(value)%`, where the escaping
backslash-escapes every occurrence of `\`, `%` and `_` in the literal
value (character-wise: metacharacters become `\c`, everything else is
unchanged). -/
theorem ilike_sw_escape {C V W O : Type}
    (operators : DrizzleOperatorSet C V W O) (column : C)
    (g1 g2 : String) (s : String) :
    conditionToDrizzleExpr ⟨g1, .ilike s, false⟩ column operators =
      .ok (operators.ilike column ("%" ++ escapeLike s ++ "%")) ∧
    conditionToDrizzleExpr ⟨g2, .sw s, false⟩ column operators =
      .ok (operators.ilike column (escapeLike s ++ "%")) ∧
    (escapeLike s).data = escAll s.data :=
  ⟨rfl, rfl, escape_chain s.data⟩

/-- When every child of a group compiles without an exception, the
children step returns exactly the surviving (non-absent) expressions in
request order. -/
theorem whereChildren_of_map_ok {C V W O : Type} (fields : FieldMap C)
    (operators : DrizzleOperatorSet C V W O) (strict : Bool) :
    ∀ (items : List (WhereNode V)) (results : List (Option W)),
      items.map (fun n => whereNodeToDrizzleExpr n fields operators strict) =
        results.map Except.ok →
      whereChildrenToDrizzleExprs items fields operators strict =
        .ok (results.filterMap id) := by
  intro items
  induction items with
  | nil =>
    intro results h
    cases results with
    | nil => rfl
    | cons r rs => simp at h
  | cons n rest ih =>
    intro results h
    cases results with
    | nil => simp at h
    | cons r rs =>
      simp only [List.map_cons] at h
      injection h with h1 h2
      simp only [whereChildrenToDrizzleExprs]
      rw [h1, ih rs h2]
      cases r with
      | none => simp [List.filterMap_cons]
      | some e => simp [List.filterMap_cons]

/-- C5: an `And`/`Or` group compiles each child, discards the children
that compiled to absent, and then: zero survivors → absent, exactly one
survivor → that child's expression directly, two or more → the group's
`and`/`or` primitive over the survivors. -/
theorem group_of_surviving_children {C V W O : Type} (items : List (WhereNode V))
    (fields : FieldMap C) (operators : DrizzleOperatorSet C V W O) (strict : Bool)
    (results : List (Option W))
    (h : items.map (fun n => whereNodeToDrizzleExpr n fields operators strict) =
      results.map Except.ok) :
    whereNodeToDrizzleExpr (.and items) fields operators strict =
      (match results.filterMap id with
       | [] => Except.ok none
       | [e] => Except.ok (some e)
       | es => Except.ok (some (operators.and es))) ∧
    whereNodeToDrizzleExpr (.or items) fields operators strict =
      (match results.filterMap id with
       | [] => Except.ok none
       | [e] => Except.ok (some e)
       | es => Except.ok (some (operators.or es))) := by
  have hc := whereChildren_of_map_ok fields operators strict items results h
  constructor <;>
  · simp only [whereNodeToDrizzleExpr]
    rw [hc]
    cases hfm : results.filterMap id with
    | nil => rfl
    | cons a tl => cases tl <;> rfl

theorem group_of_surviving_children_witness :
    c5items.map (fun n => whereNodeToDrizzleExpr n fm1 pgOps false) =
      ([none, some (.eq 1 5)] : List (Option (SqlExpr Nat Nat))).map Except.ok ∧
    whereNodeToDrizzleExpr (.and c5items) fm1 pgOps false = .ok (some (.eq 1 5)) ∧
    whereNodeToDrizzleExpr (.or c5items) fm1 pgOps false = .ok (some (.eq 1 5)) :=
  ⟨rfl,
    (group_of_surviving_children c5items fm1 pgOps false
      [none, some (.eq 1 5)] rfl).1,
    (group_of_surviving_children c5items fm1 pgOps false
      [none, some (.eq 1 5)] rfl).2⟩

/-- When every selected path is mapped, the select-shape loop succeeds
and the key at position `i` is determined by the alias counter state plus
the number of earlier positions with the same base alias. -/
theorem buildSelectAux_keys {C : Type} (fields : FieldMap C) (af : String → String)
    (strict : Bool) :
    ∀ (sel : List String) (cnt : String → Nat),
      (∀ p ∈ sel, (fields p).isSome) →
      ∃ shape, buildSelectAux fields strict af sel cnt = .ok shape ∧
        ∀ i : Nat, (shape.map Prod.fst).get? i =
          (sel.get? i).map (fun p =>
            if cnt (af p) + ((sel.take i).map af).count (af p) = 0 then af p
            else af p ++ "_" ++
              toString (cnt (af p) + ((sel.take i).map af).count (af p))) := by
  intro sel
  induction sel with
  | nil =>
    intro cnt hall
    exact ⟨[], rfl, fun i => by cases i <;> rfl⟩
  | cons p rest ih =>
    intro cnt hall
    have hp : (fields p).isSome := hall p (List.mem_cons_self p rest)
    obtain ⟨col, hcol⟩ := Option.isSome_iff_exists.mp hp
    obtain ⟨shape, hs, hkeys⟩ :=
      ih (fun a => if a = af p then cnt (af p) + 1 else cnt a)
        (fun q hq => hall q (List.mem_cons_of_mem p hq))
    refine ⟨(if cnt (af p) = 0 then af p
        else af p ++ "_" ++ toString (cnt (af p)), col) :: shape, ?_, ?_⟩
    · simp only [buildSelectAux, getMappedColumn, hcol, hs, Except.map]
    · intro i
      cases i with
      | zero => simp
      | succ n =>
        have hstep := hkeys n
        simp only [List.map_cons, List.get?_cons_succ, List.take_succ_cons,
          List.count_cons] at hstep ⊢
        rw [hstep]
        cases hq : rest.get? n with
        | none => rfl
        | some q =>
          simp only [Option.map_some']
          by_cases hb : af q = af p
          · rw [hb]
            simp
            have harith : cnt (af p) + 1 +
                List.count (af p) (List.take n (List.map af rest)) =
                cnt (af p) +
                  (List.count (af p) (List.take n (List.map af rest)) + 1) := by
              omega
            rw [harith]
          · have hb2 : ¬af p = af q := fun h => hb h.symm
            simp [hb, hb2]

/-- C3 (amended): within one build call, when every selected path is
mapped, the earliest occurrence of each base alias keeps the unsuffixed
alias and the N-th later occurrence of the same base alias receives the
suffix `_N` (first collision `_1`, second `_2`, ...); the keys of the
resulting mapping are however not guaranteed to be globally unique,
because a path whose own base alias coincides with a suffixed alias (for
example base `a_b_1` next to the first collision of `a_b`) produces a
duplicate key that overwrites the earlier entry. -/
theorem select_alias_collision_suffixes {C : Type} (sel : List String)
    (fields : FieldMap C) (strict : Bool) (af : String → String)
    (hall : ∀ p ∈ sel, (fields p).isSome) :
    ∃ shape, buildSelectShapeInternal sel fields strict af = .ok shape ∧
      ∀ i : Nat, (shape.map Prod.fst).get? i =
        (sel.get? i).map (fun p =>
          if ((sel.take i).map af).count (af p) = 0 then af p
          else af p ++ "_" ++ toString (((sel.take i).map af).count (af p))) := by
  obtain ⟨shape, hs, hkeys⟩ :=
    buildSelectAux_keys fields af strict sel (fun _ => 0) hall
  refine ⟨shape, hs, fun i => ?_⟩
  simpa using hkeys i

theorem select_alias_collision_suffixes_witness :
    buildSelectShapeInternal ["a.b", "a.b"] c3Fields false defaultSelectAlias =
      .ok [("a_b", 1), ("a_b_1", 1)] ∧
    (([("a_b", (1 : Nat)), ("a_b_1", 1)].map Prod.fst).get? 1 =
      ((["a.b", "a.b"] : List String).get? 1).map (fun p =>
        if ((["a.b", "a.b"].take 1).map defaultSelectAlias).count
            (defaultSelectAlias p) = 0 then defaultSelectAlias p
        else defaultSelectAlias p ++ "_" ++
          toString (((["a.b", "a.b"].take 1).map defaultSelectAlias).count
            (defaultSelectAlias p)))) := by
  obtain ⟨shape, hs, hkeys⟩ :=
    select_alias_collision_suffixes ["a.b", "a.b"] c3Fields false
      defaultSelectAlias (by decide)
  have hconc : buildSelectShapeInternal ["a.b", "a.b"] c3Fields false
      defaultSelectAlias = .ok [("a_b", 1), ("a_b_1", 1)] := rfl
  have hshape : shape = [("a_b", 1), ("a_b_1", 1)] := by
    rw [hs] at hconc
    injection hconc
  refine ⟨hconc, ?_⟩
  have hone := hkeys 1
  rw [hshape] at hone
  exact hone

/-- C3 (counterexample): with both `"a.b"` and the literal path `"a_b_1"`
mapped, the select list `["a.b", "a.b", "a_b_1"]` produces the key
`a_b_1` twice — the suffixed first collision of `a_b` and the base alias
of `a_b_1` — so the keys of the produced mapping are not unique and the
later assignment overwrites the earlier one. -/
theorem select_alias_unique_counterexample :
    buildSelectShapeInternal ["a.b", "a.b", "a_b_1"] c3Fields true
      defaultSelectAlias = .ok [("a_b", 1), ("a_b_1", 1), ("a_b_1", 2)] ∧
    ¬ (([("a_b", (1 : Nat)), ("a_b_1", 1), ("a_b_1", 2)].map Prod.fst).Nodup) :=
  ⟨rfl, by decide⟩

/-- In permissive mode the select-shape loop never fails and emits one
entry per mapped path, for any state of the alias counter. -/
theorem buildSelectAux_permissive {C : Type} (fields : FieldMap C)
    (af : String → String) :
    ∀ (sel : List String) (cnt : String → Nat),
      ∃ shape, buildSelectAux fields false af sel cnt = .ok shape ∧
        shape.length = (sel.filter (fun p => (fields p).isSome)).length := by
  intro sel
  induction sel with
  | nil => exact fun cnt => ⟨[], rfl, rfl⟩
  | cons p rest ih =>
    intro cnt
    cases hp : fields p with
    | none =>
      obtain ⟨shape, hs, hlen⟩ := ih cnt
      refine ⟨shape, ?_, ?_⟩
      · simp only [buildSelectAux, getMappedColumn, hp]
        exact hs
      · simp [hlen, List.filter_cons, hp]
    | some col =>
      obtain ⟨shape, hs, hlen⟩ :=
        ih (fun a => if a = af p then cnt (af p) + 1 else cnt a)
      refine ⟨(if cnt (af p) = 0 then af p
          else af p ++ "_" ++ toString (cnt (af p)), col) :: shape, ?_, ?_⟩
      · simp only [buildSelectAux, getMappedColumn, hp, hs, Except.map]
      · simp [hlen, List.filter_cons, hp]

/-- In strict mode the select-shape loop fails with a `FieldMappingError`
as soon as the select list contains an unmapped path, for any state of
the alias counter. -/
theorem buildSelectAux_strict_error {C : Type} (fields : FieldMap C)
    (af : String → String) :
    ∀ (sel : List String) (cnt : String → Nat) (p : String),
      p ∈ sel → fields p = none →
      ∃ q, q ∈ sel ∧ fields q = none ∧
        buildSelectAux fields true af sel cnt = .error (.fieldMapping q) := by
  intro sel
  induction sel with
  | nil => intro cnt p hmem; simp at hmem
  | cons x rest ih =>
    intro cnt p hmem hnone
    cases hx : fields x with
    | none =>
      refine ⟨x, List.mem_cons_self x rest, hx, ?_⟩
      simp [buildSelectAux, getMappedColumn, hx]
    | some col =>
      have hmem' : p ∈ rest := by
        cases List.mem_cons.mp hmem with
        | inl he => rw [he, hx] at hnone; cases hnone
        | inr hr => exact hr
      obtain ⟨q, hq1, hq2, hq3⟩ :=
        ih (fun a => if a = af x then cnt (af x) + 1 else cnt a) p hmem' hnone
      refine ⟨q, List.mem_cons_of_mem x hq1, hq2, ?_⟩
      simp only [buildSelectAux, getMappedColumn, hx, hq3, Except.map]

/-- C1 (amended): building the select shape skips unmapped paths silently
only when `strictFieldMapping` is false (then it never fails and emits one
entry per mapped path); when `strictFieldMapping` is true, any unmapped
select path makes the build fail with a `FieldMappingError` naming an
unmapped path. -/
theorem select_shape_strict_dependent {C : Type} (sel : List String)
    (fields : FieldMap C) (af : String → String) :
    (∃ shape, buildSelectShapeInternal sel fields false af = .ok shape ∧
      shape.length = (sel.filter (fun p => (fields p).isSome)).length) ∧
    (∀ p, p ∈ sel → fields p = none →
      ∃ q, q ∈ sel ∧ fields q = none ∧
        buildSelectShapeInternal sel fields true af = .error (.fieldMapping q)) :=
  ⟨buildSelectAux_permissive fields af sel (fun _ => 0),
   fun p hmem hnone =>
     buildSelectAux_strict_error fields af sel (fun _ => 0) p hmem hnone⟩

theorem select_shape_strict_dependent_witness :
    buildSelectShapeInternal ["name", "missing"] fm1 false defaultSelectAlias =
      .ok [("name", 1)] ∧
    (∃ q, q ∈ ["name", "missing"] ∧ fm1 q = none ∧
      buildSelectShapeInternal ["name", "missing"] fm1 true defaultSelectAlias =
        .error (.fieldMapping q)) :=
  ⟨rfl,
    (select_shape_strict_dependent ["name", "missing"] fm1
      defaultSelectAlias).2 "missing" (by simp) rfl⟩

/-- C1 (counterexample): under strict mapping, a select list containing
the unmapped path `"missing"` makes the select-shape build throw instead
of dropping the path. -/
theorem select_shape_strict_counterexample :
    buildSelectShapeInternal ["missing"] fm1 true defaultSelectAlias =
      .error (.fieldMapping "missing") := rfl

/-- In permissive mode the orderBy compilation never fails and emits one
ordering expression per mapped sort key. -/
theorem buildOrderBy_permissive {C V W O : Type} (fields : FieldMap C)
    (operators : DrizzleOperatorSet C V W O) :
    ∀ items : List SortItem,
      ∃ es, buildOrderBy items fields operators false = .ok es ∧
        es.length =
          (items.filter (fun it => (fields it.property).isSome)).length := by
  intro items
  induction items with
  | nil => exact ⟨[], rfl, rfl⟩
  | cons it rest ih =>
    obtain ⟨es, hs, hlen⟩ := ih
    cases hp : fields it.property with
    | none =>
      refine ⟨es, ?_, ?_⟩
      · simp only [buildOrderBy, getMappedColumn, hp]
        exact hs
      · simp [hlen, List.filter_cons, hp]
    | some col =>
      refine ⟨directionToOrderExpr it.direction col operators :: es, ?_, ?_⟩
      · simp only [buildOrderBy, getMappedColumn, hp, hs, Except.map]
      · simp [hlen, List.filter_cons, hp]

/-- In strict mode the orderBy compilation fails with a
`FieldMappingError` as soon as some sort key is unmapped. -/
theorem buildOrderBy_strict_error {C V W O : Type} (fields : FieldMap C)
    (operators : DrizzleOperatorSet C V W O) :
    ∀ (items : List SortItem) (it : SortItem),
      it ∈ items → fields it.property = none →
      ∃ q, q ∈ items.map SortItem.property ∧ fields q = none ∧
        buildOrderBy items fields operators true = .error (.fieldMapping q) := by
  intro items
  induction items with
  | nil => intro it hmem; simp at hmem
  | cons x rest ih =>
    intro it hmem hnone
    cases hx : fields x.property with
    | none =>
      refine ⟨x.property, by simp, hx, ?_⟩
      simp [buildOrderBy, getMappedColumn, hx]
    | some col =>
      have hmem' : it ∈ rest := by
        cases List.mem_cons.mp hmem with
        | inl he => rw [he, hx] at hnone; cases hnone
        | inr hr => exact hr
      obtain ⟨q, hq1, hq2, hq3⟩ := ih it hmem' hnone
      refine ⟨q, by simp [List.mem_cons]; right; simpa using hq1, hq2, ?_⟩
      simp only [buildOrderBy, getMappedColumn, hx, hq3, Except.map]

/-- C2 (amended): the orderBy compilation drops unmapped sort keys without
failing only when `strictFieldMapping` is false; when it is true, an
unmapped sort key makes the compilation fail with a `FieldMappingError`
naming an unmapped property. -/
theorem orderby_strict_dependent {C V W O : Type} (items : List SortItem)
    (fields : FieldMap C) (operators : DrizzleOperatorSet C V W O) :
    (∃ es, buildOrderBy items fields operators false = .ok es ∧
      es.length =
        (items.filter (fun it => (fields it.property).isSome)).length) ∧
    (∀ it, it ∈ items → fields it.property = none →
      ∃ q, q ∈ items.map SortItem.property ∧ fields q = none ∧
        buildOrderBy items fields operators true = .error (.fieldMapping q)) :=
  ⟨buildOrderBy_permissive fields operators items,
   fun it hmem hnone =>
     buildOrderBy_strict_error fields operators items it hmem hnone⟩

theorem orderby_strict_dependent_witness :
    buildOrderBy [⟨"name", .DESC⟩, ⟨"missing", .ASC⟩] fm1 pgOps false =
      .ok [.desc 1] ∧
    (∃ q, q ∈ [⟨"name", .DESC⟩, (⟨"missing", .ASC⟩ : SortItem)].map
        SortItem.property ∧ fm1 q = none ∧
      buildOrderBy [⟨"name", .DESC⟩, ⟨"missing", .ASC⟩] fm1 pgOps true =
        .error (.fieldMapping q)) :=
  ⟨rfl,
    (orderby_strict_dependent [⟨"name", .DESC⟩, ⟨"missing", .ASC⟩] fm1
      pgOps).2 ⟨"missing", .ASC⟩ (by simp) rfl⟩

/-- C2 (counterexample): under the default (strict) configuration, a
request sorting by the unmapped property `"missing"` makes the whole
clause build throw a `FieldMappingError` instead of pruning the entry. -/
theorem orderby_strict_counterexample :
    buildDrizzleClausesFromPagination unmappedSortReq baseCfg =
      .error (.fieldMapping "missing") := rfl

end ZodPaginateDrizzle
